import Mathlib

set_option maxRecDepth 100000

/-!
Shallow embedding of the seed-provisioning / TOTP service in `app.py`
(TOTP Seed Service: FastAPI endpoints `decrypt-seed`, `generate-2fa`,
`verify-2fa` over helpers `decrypt_seed_from_bytes`, `save_seed_atomic`,
`read_seed`, `hex_to_base32`, `generate_totp_from_hex`,
`verify_totp_from_hex`).

Python strings are embedded as `List Char`, byte strings as `List Nat`
(each element < 256).  Python exceptions become an explicit error
inductive that records the class hierarchy the endpoints dispatch on
(in CPython, `UnicodeDecodeError` is a subclass of `ValueError`).
The RSA private key is embedded as an opaque decryption oracle
`List Nat → Option (List Nat)` (`none` = `private_key.decrypt` raised,
for whatever reason); everything downstream of the decrypt call is
embedded concretely, including SHA-1, HMAC, and the pyotp TOTP
algorithm (RFC 4226/6238) that `pyotp.TOTP` implements.
-/

/-! ### Python string primitives -/

/-- Python whitespace test used by `str.strip()` (the ASCII whitespace
characters; the seed pipeline never meets non-ASCII whitespace). -/
def isPySpace (c : Char) : Bool :=
  c == ' ' || c == '\t' || c == '\n' || c == '\r' || c == '\x0b' || c == '\x0c'

/-- Right strip: drop trailing whitespace. -/
def rstrip (s : List Char) : List Char :=
  (s.reverse.dropWhile isPySpace).reverse

/-- Python `str.strip()`: drop leading and trailing whitespace. -/
def pstrip (s : List Char) : List Char :=
  rstrip (s.dropWhile isPySpace)

/-- Python `str.lower()` restricted to ASCII (the validation in
`decrypt_seed_from_bytes` lowercases each char before the hex test). -/
def lowerAscii (c : Char) : Char :=
  if 'A' ≤ c ∧ c ≤ 'Z' then Char.ofNat (c.toNat + 32) else c

/-- The charset test of `decrypt_seed_from_bytes`:
`c.lower() in set("0123456789abcdef")`. -/
def isSeedHexChar (c : Char) : Bool :=
  ("0123456789abcdef".data).contains (lowerAscii c)

/-- The Seed invariant of the spec: exactly 64 hex characters. -/
def SeedInvariant (s : List Char) : Prop :=
  s.length = 64 ∧ s.all isSeedHexChar = true

instance (s : List Char) : Decidable (SeedInvariant s) := by
  unfold SeedInvariant; infer_instance

/-! ### Hex decoding (`bytes.fromhex`) -/

/-- Value of one hex digit, `none` for a non-hex character. -/
def hexDigitVal? (c : Char) : Option Nat :=
  if '0' ≤ c ∧ c ≤ '9' then some (c.toNat - 48)
  else if 'a' ≤ c ∧ c ≤ 'f' then some (c.toNat - 87)
  else if 'A' ≤ c ∧ c ≤ 'F' then some (c.toNat - 55)
  else none

/-- Python `bytes.fromhex` (Python ≥ 3.7): pairs of hex digits with all
ASCII whitespace (`Py_ISSPACE`: space, `\t`, `\n`, `\x0b`, `\x0c`,
`\r` — the same six characters as `isPySpace`) skipped between byte
pairs, but the two digits of one byte must be adjacent; a lone trailing
digit or any non-hex, non-whitespace character fails (`ValueError`). -/
def bytesFromHex : List Char → Option (List Nat)
  | [] => some []
  | c1 :: rest =>
    if isPySpace c1 then bytesFromHex rest
    else
      match rest with
      | c2 :: rest2 =>
        match hexDigitVal? c1, hexDigitVal? c2, bytesFromHex rest2 with
        | some h, some l, some bs => some ((16 * h + l) :: bs)
        | _, _, _ => none
      | [] => none

/-! ### Big-endian byte packing helpers -/

/-- `n`-byte big-endian representation of `v` (struct.pack-style). -/
def toBytesBE (n : Nat) (v : Nat) : List Nat :=
  (List.range n).map (fun i => (v >>> (8 * (n - 1 - i))) % 256)

/-- Groups of 4 bytes into 32-bit big-endian words. -/
def toWordsBE : List Nat → List Nat
  | b0 :: b1 :: b2 :: b3 :: rest =>
    (((b0 * 256 + b1) * 256 + b2) * 256 + b3) :: toWordsBE rest
  | _ => []

/-! ### Base32 (`base64.b32encode` / `base64.b32decode`) -/

/-- RFC 4648 base32 alphabet. -/
def b32alphabet : List Char := "ABCDEFGHIJKLMNOPQRSTUVWXYZ234567".data

/-- Encode one chunk of at most five bytes into eight output characters,
padding with `=` exactly as `base64.b32encode` does. -/
def b32encodeChunk (chunk : List Nat) : List Char :=
  let n := chunk.length
  let v := (chunk.foldl (fun a b => a * 256 + b) 0) <<< (8 * (5 - n))
  let outLen := (8 * n + 4) / 5
  ((List.range 8).map (fun i => b32alphabet.getD ((v >>> (35 - 5 * i)) % 32) 'A')).take outLen
    ++ List.replicate (8 - outLen) '='

/-- `base64.b32encode` over a byte string (result as characters),
five input bytes per eight output characters. -/
def b32encode : List Nat → List Char
  | [] => []
  | [b0] => b32encodeChunk [b0]
  | [b0, b1] => b32encodeChunk [b0, b1]
  | [b0, b1, b2] => b32encodeChunk [b0, b1, b2]
  | [b0, b1, b2, b3] => b32encodeChunk [b0, b1, b2, b3]
  | b0 :: b1 :: b2 :: b3 :: b4 :: rest =>
    b32encodeChunk [b0, b1, b2, b3, b4] ++ b32encode rest

/-- Index of a base32 alphabet character. -/
def b32charVal? (c : Char) : Option Nat :=
  if 'A' ≤ c ∧ c ≤ 'Z' then some (c.toNat - 65)
  else if '2' ≤ c ∧ c ≤ '7' then some (c.toNat - 24)
  else none

/-- `base64.b32decode` on well-formed input: length a multiple of 8,
alphabet characters with `=` padding only at the end. -/
def b32decode (s : List Char) : Option (List Nat) :=
  if s.length % 8 ≠ 0 then none
  else
    let body := (s.reverse.dropWhile (fun c => c == '=')).reverse
    match body.mapM b32charVal? with
    | none => none
    | some vals =>
      let bitcount := 5 * vals.length
      let nbytes := bitcount / 8
      let v := (vals.foldl (fun a x => a * 32 + x) 0) >>> (bitcount - 8 * nbytes)
      some (toBytesBE nbytes v)

/-! ### Base64 decoding (`base64.b64decode`) -/

/-- Value of one base64 alphabet character. -/
def b64charVal? (c : Char) : Option Nat :=
  if 'A' ≤ c ∧ c ≤ 'Z' then some (c.toNat - 65)
  else if 'a' ≤ c ∧ c ≤ 'z' then some (c.toNat - 71)
  else if '0' ≤ c ∧ c ≤ '9' then some (c.toNat + 4)
  else if c = '+' then some 62
  else if c = '/' then some 63
  else none

/-- `base64.b64decode` on well-formed input: groups of four characters,
`=` padding only in the final group. -/
def b64decode : List Char → Option (List Nat)
  | [] => some []
  | c0 :: c1 :: c2 :: c3 :: rest =>
    match b64charVal? c0, b64charVal? c1 with
    | some v0, some v1 =>
      if c2 = '=' ∧ c3 = '=' ∧ rest = [] then
        some [v0 * 4 + v1 / 16]
      else if c3 = '=' ∧ rest = [] then
        match b64charVal? c2 with
        | some v2 => some [v0 * 4 + v1 / 16, (v1 % 16) * 16 + v2 / 4]
        | none => none
      else
        match b64charVal? c2, b64charVal? c3, b64decode rest with
        | some v2, some v3, some bs =>
          some ([v0 * 4 + v1 / 16, (v1 % 16) * 16 + v2 / 4, (v2 % 4) * 64 + v3] ++ bs)
        | _, _, _ => none
    | _, _ => none
  | _ => none

/-! ### Strict UTF-8 decoding (`bytes.decode("utf-8")`) -/

/-- Continuation byte test. -/
def utf8Cont (b : Nat) : Bool := 128 ≤ b ∧ b ≤ 191

/-- Strict UTF-8 decoder, matching CPython's `bytes.decode("utf-8")`
(rejects overlong forms, surrogates, and code points above U+10FFFF);
`none` corresponds to `UnicodeDecodeError`. -/
def utf8Decode : List Nat → Option (List Char)
  | [] => some []
  | b0 :: rest =>
    if b0 < 128 then
      (utf8Decode rest).map (fun cs => Char.ofNat b0 :: cs)
    else if 194 ≤ b0 ∧ b0 ≤ 223 then
      match rest with
      | b1 :: rest2 =>
        if utf8Cont b1 then
          (utf8Decode rest2).map (fun cs => Char.ofNat ((b0 - 192) * 64 + (b1 - 128)) :: cs)
        else none
      | _ => none
    else if 224 ≤ b0 ∧ b0 ≤ 239 then
      match rest with
      | b1 :: b2 :: rest2 =>
        let lo1 : Nat := if b0 = 224 then 160 else 128
        let hi1 : Nat := if b0 = 237 then 159 else 191
        if lo1 ≤ b1 ∧ b1 ≤ hi1 ∧ utf8Cont b2 then
          (utf8Decode rest2).map
            (fun cs => Char.ofNat ((b0 - 224) * 4096 + (b1 - 128) * 64 + (b2 - 128)) :: cs)
        else none
      | _ => none
    else if 240 ≤ b0 ∧ b0 ≤ 244 then
      match rest with
      | b1 :: b2 :: b3 :: rest2 =>
        let lo1 : Nat := if b0 = 240 then 144 else 128
        let hi1 : Nat := if b0 = 244 then 143 else 191
        if lo1 ≤ b1 ∧ b1 ≤ hi1 ∧ utf8Cont b2 ∧ utf8Cont b3 then
          (utf8Decode rest2).map
            (fun cs =>
              Char.ofNat ((b0 - 240) * 262144 + (b1 - 128) * 4096 + (b2 - 128) * 64 + (b3 - 128)) :: cs)
        else none
      | _ => none
    else none

/-! ### SHA-1 (FIPS 180-1), as used by `hmac.new(key, msg, hashlib.sha1)`
inside pyotp. 32-bit words are `Nat` values kept below `2 ^ 32`. -/

/-- Truncate to 32 bits. -/
def w32 (n : Nat) : Nat := n % 4294967296

/-- Rotate a 32-bit word left by `k`. -/
def rotl (k x : Nat) : Nat := w32 ((x <<< k) ||| (x >>> (32 - k)))

/-- SHA-1 message padding: `0x80`, zeros to 56 mod 64, 8-byte bit length. -/
def sha1pad (msg : List Nat) : List Nat :=
  let l := msg.length
  msg ++ [128] ++ List.replicate ((119 - l % 64) % 64) 0 ++ toBytesBE 8 (8 * l)

/-- Extend the 16 block words to 80 schedule words.  `acc` holds the words
produced so far, most recent first, so `w[i-3]` is `acc.getD 2`. -/
def sha1ExtendRev (acc : List Nat) : Nat → List Nat
  | 0 => acc
  | n + 1 =>
    sha1ExtendRev
      (rotl 1 (acc.getD 2 0 ^^^ acc.getD 7 0 ^^^ acc.getD 13 0 ^^^ acc.getD 15 0) :: acc) n

/-- The 80 SHA-1 rounds, folding over the schedule with the round index. -/
def sha1Rounds : List Nat → Nat → Nat × Nat × Nat × Nat × Nat → Nat × Nat × Nat × Nat × Nat
  | [], _, st => st
  | wi :: ws, i, (a, b, c, d, e) =>
    let fk : Nat × Nat :=
      if i < 20 then ((b &&& c) ||| ((4294967295 ^^^ b) &&& d), 1518500249)
      else if i < 40 then (b ^^^ c ^^^ d, 1859775393)
      else if i < 60 then ((b &&& c) ||| (b &&& d) ||| (c &&& d), 2400959708)
      else (b ^^^ c ^^^ d, 3395469782)
    let t := w32 (rotl 5 a + fk.1 + e + fk.2 + wi)
    sha1Rounds ws (i + 1) (t, a, rotl 30 b, c, d)

/-- Compress one 16-word block into the running state. -/
def sha1Compress (st : Nat × Nat × Nat × Nat × Nat) (block : List Nat) :
    Nat × Nat × Nat × Nat × Nat :=
  let ws := (sha1ExtendRev block.reverse 64).reverse
  let (h0, h1, h2, h3, h4) := st
  let (a, b, c, d, e) := sha1Rounds ws 0 st
  (w32 (h0 + a), w32 (h1 + b), w32 (h2 + c), w32 (h3 + d), w32 (h4 + e))

/-- Process the padded message, sixteen words at a time; `buf` collects
the words of the current block. -/
def sha1Loop (st : Nat × Nat × Nat × Nat × Nat) (buf : List Nat) :
    List Nat → Nat × Nat × Nat × Nat × Nat
  | [] => st
  | w :: ws =>
    if buf.length = 15 then sha1Loop (sha1Compress st (buf ++ [w])) [] ws
    else sha1Loop st (buf ++ [w]) ws

/-- SHA-1 digest of a byte string, as 20 bytes. -/
def sha1 (msg : List Nat) : List Nat :=
  let st := sha1Loop (1732584193, 4023233417, 2562383102, 271733878, 3285377520) []
    (toWordsBE (sha1pad msg))
  let (h0, h1, h2, h3, h4) := st
  toBytesBE 4 h0 ++ toBytesBE 4 h1 ++ toBytesBE 4 h2 ++ toBytesBE 4 h3 ++ toBytesBE 4 h4

/-- HMAC-SHA1 (RFC 2104), block size 64. -/
def hmacSha1 (key msg : List Nat) : List Nat :=
  let k0 := if 64 < key.length then sha1 key else key
  let k := k0 ++ List.replicate (64 - k0.length) 0
  sha1 ((k.map (fun b => b ^^^ 92)) ++ sha1 ((k.map (fun b => b ^^^ 54)) ++ msg))

/-! ### HOTP / TOTP (pyotp's `generate_otp`, RFC 4226/6238) -/

/-- Decimal digit character. -/
def decDigit (d : Nat) : Char := Char.ofNat (48 + d)

/-- Digit-collection loop for `natDecRepr`; the fuel always suffices
because a number needs no more digits than its own size. -/
def natDecReprAux : Nat → Nat → List Char → List Char
  | 0, _, acc => acc
  | fuel + 1, n, acc =>
    if n < 10 then decDigit n :: acc
    else natDecReprAux fuel (n / 10) (decDigit (n % 10) :: acc)

/-- Decimal representation of a natural number (Python `str`). -/
def natDecRepr (n : Nat) : List Char :=
  natDecReprAux (n + 1) n []

/-- Left-pad with `'0'` to six characters (pyotp's leading-zero loop). -/
def zfill6 (s : List Char) : List Char :=
  List.replicate (6 - s.length) '0' ++ s

/-- pyotp `generate_otp` with SHA-1 and six digits: HMAC over the 8-byte
big-endian counter, dynamic truncation, decimal formatting. -/
def hotp6 (key : List Nat) (counter : Nat) : List Char :=
  let h := hmacSha1 key (toBytesBE 8 counter)
  let o := (h.getD 19 0) % 16
  let binCode := ((h.getD o 0) % 128) * 16777216 + (h.getD (o + 1) 0) * 65536
    + (h.getD (o + 2) 0) * 256 + h.getD (o + 3) 0
  zfill6 (natDecRepr (binCode % 1000000))

/-- Python `str.upper()` restricted to ASCII. -/
def upperAscii (c : Char) : Char :=
  if 'a' ≤ c ∧ c ≤ 'z' then Char.ofNat (c.toNat - 32) else c

/-- pyotp `byte_secret`: re-pad the stored base32 secret to a multiple of
eight characters, uppercase it, and decode. -/
def pyotpByteSecret (s : List Char) : Option (List Nat) :=
  b32decode (s.map upperAscii ++ List.replicate ((8 - s.length % 8) % 8) '=')

/-! ### Python exception taxonomy

Only the distinctions the endpoints dispatch on are kept.  CPython's
class hierarchy makes `UnicodeDecodeError` a subclass of `ValueError`
(`UnicodeDecodeError < UnicodeError < ValueError`), so the endpoint
clause `except ValueError` catches it; `isValueError` records that. -/

inductive PyExc where
  /-- `RuntimeError("Decryption failed (Key or Parameter Mismatch)")`. -/
  | runtimeDecryptionFailed : PyExc
  /-- `ValueError(f"Invalid seed length: expected 64, got {n}")`. -/
  | valueInvalidSeedLength (got : Nat) : PyExc
  /-- `ValueError("Seed contains non-hex characters")`. -/
  | valueSeedNonHex : PyExc
  /-- `ValueError("Stored seed invalid length")` from `read_seed`. -/
  | valueStoredSeedInvalidLength : PyExc
  /-- `ValueError("Invalid hex seed")` from `hex_to_base32`. -/
  | valueInvalidHexSeed : PyExc
  /-- pyotp `ValueError("input must be positive integer")`. -/
  | valueNegativeOtpInput : PyExc
  /-- `UnicodeDecodeError` from `plaintext_bytes.decode("utf-8")`. -/
  | unicodeDecodeError : PyExc
  /-- `binascii.Error` from pyotp base32-decoding a bad secret. -/
  | binasciiError : PyExc
  /-- `FileNotFoundError("Seed not found")` from `read_seed`. -/
  | fileNotFoundSeed : PyExc
deriving DecidableEq, Repr

/-- Whether an exception is caught by `except ValueError`
(`UnicodeDecodeError` is a `ValueError` subclass in CPython). -/
def PyExc.isValueError : PyExc → Bool
  | .valueInvalidSeedLength _ => true
  | .valueSeedNonHex => true
  | .valueStoredSeedInvalidLength => true
  | .valueInvalidHexSeed => true
  | .valueNegativeOtpInput => true
  | .unicodeDecodeError => true
  | _ => false

/-! ### `decrypt_seed_from_bytes` (app.py lines 31-51)

RSA-OAEP decryption itself is opaque: its outcome is passed in as an
`Option (List Nat)` produced by the key oracle (`none` = the
`private_key.decrypt` call raised, whatever the cause; the `except`
clause turns any such exception into one `RuntimeError`). -/

def decrypt_seed_from_bytes (decryptOutcome : Option (List Nat)) :
    Except PyExc (List Char) :=
  match decryptOutcome with
  | none => .error .runtimeDecryptionFailed
  | some plaintextBytes =>
    match utf8Decode plaintextBytes with
    | none => .error .unicodeDecodeError
    | some s =>
      let seedHex := pstrip s
      if seedHex.length ≠ 64 then .error (.valueInvalidSeedLength seedHex.length)
      else if ¬ (seedHex.all isSeedHexChar = true) then .error .valueSeedNonHex
      else .ok seedHex

/-! ### The seed store (app.py lines 54-71)

The filesystem state visible to this program: the canonical seed file
and its temporary sibling `path + ".tmp"`.  `save_seed_atomic` is
embedded as a sequence of micro-steps so that interruption before the
final `os.replace` can be expressed: any prefix of the step list may
execute.  A `writeTmp` step appends a chunk to the temporary file
(the OS may flush a `write` in arbitrary pieces); `renameTmp` is the
single atomic `os.replace(tmp_path, path)`. -/

structure Store where
  canonical : Option (List Char)
  tmp : Option (List Char)
deriving DecidableEq, Repr

/-- One micro-step of `save_seed_atomic`. -/
inductive SaveStep where
  /-- `os.makedirs(dirpath, exist_ok=True)` — no effect on either file. -/
  | makeDirs : SaveStep
  /-- `open(tmp_path, "w")` — truncate/create the temporary file. -/
  | openTmp : SaveStep
  /-- Part of `f.write(...)` reaching the temporary file. -/
  | writeTmp (chunk : List Char) : SaveStep
  /-- `os.replace(tmp_path, path)` — the single atomic rename. -/
  | renameTmp : SaveStep
deriving DecidableEq, Repr

/-- Effect of one micro-step on the filesystem state. -/
def stepRun (st : Store) : SaveStep → Store
  | .makeDirs => st
  | .openTmp => { st with tmp := some [] }
  | .writeTmp chunk => { st with tmp := st.tmp.map (· ++ chunk) }
  | .renameTmp =>
    match st.tmp with
    | some t => { canonical := some t, tmp := none }
    | none => st

/-- Run a list of micro-steps. -/
def runSteps (st : Store) : List SaveStep → Store
  | [] => st
  | s :: rest => runSteps (stepRun st s) rest

/-- The step sequence of `save_seed_atomic(seed_hex, path)`: create the
directory, open the temporary sibling, write `seed_hex.strip() + "\n"`
(in OS-chosen pieces `chunks`), then one atomic replace. -/
def saveProg (chunks : List (List Char)) : List SaveStep :=
  [SaveStep.makeDirs, SaveStep.openTmp] ++ chunks.map SaveStep.writeTmp
    ++ [SaveStep.renameTmp]

/-- `save_seed_atomic` run to completion (the single `f.write` call
delivered in one piece). -/
def save_seed_atomic (seedHex : List Char) (st : Store) : Store :=
  runSteps st (saveProg [pstrip seedHex ++ ['\n']])

/-- `read_seed` (app.py lines 64-71): `FileNotFoundError` when the
canonical path does not exist, else read, strip, and check only that
the stripped length is 64. -/
def read_seed (st : Store) : Except PyExc (List Char) :=
  match st.canonical with
  | none => .error .fileNotFoundSeed
  | some content =>
    let s := pstrip content
    if s.length ≠ 64 then .error .valueStoredSeedInvalidLength
    else .ok s

/-! ### `hex_to_base32` and the TOTP operations (app.py lines 74-95) -/

/-- `hex_to_base32` (lines 74-80): `bytes.fromhex`, `base64.b32encode`,
decode to text, `strip()`, then `replace("=", "")`. -/
def hex_to_base32 (hexSeed : List Char) : Except PyExc (List Char) :=
  match bytesFromHex hexSeed with
  | none => .error .valueInvalidHexSeed
  | some seedBytes =>
    .ok ((pstrip (b32encode seedBytes)).filter (fun c => !(c == '=')))

/-- `generate_totp_from_hex` (lines 83-88): pyotp code at the current
counter `now / 30` plus `valid_for = 30 - now % 30`.  `now` is the
integer wall-clock `int(time.time())` of the call. -/
def generate_totp_from_hex (hexSeed : List Char) (now : Nat) :
    Except PyExc (List Char × Nat) :=
  match hex_to_base32 hexSeed with
  | .error e => .error e
  | .ok b32 =>
    match pyotpByteSecret b32 with
    | none => .error .binasciiError
    | some key => .ok (hotp6 key (now / 30), 30 - now % 30)

/-- pyotp `verify` loop: for each offset in order, compute the code at
`timeCounter + offset` (raising if that counter is negative, as
pyotp's `generate_otp` does) and return `True` on the first match. -/
def pyotpVerifyLoop (key : List Nat) (otp : List Char) (timeCounter : Int) :
    List Int → Except PyExc Bool
  | [] => .ok false
  | i :: is =>
    let c := timeCounter + i
    if c < 0 then .error .valueNegativeOtpInput
    else if hotp6 key c.toNat == otp then .ok true
    else pyotpVerifyLoop key otp timeCounter is

/-- `verify_totp_from_hex` (lines 91-95): pyotp `verify` with
`valid_window`, comparing the submitted string against the codes at
offsets `-window .. window` around the current counter `now / 30`. -/
def verify_totp_from_hex (hexSeed code : List Char) (validWindow : Nat) (now : Nat) :
    Except PyExc Bool :=
  match hex_to_base32 hexSeed with
  | .error e => .error e
  | .ok b32 =>
    match pyotpByteSecret b32 with
    | none => .error .binasciiError
    | some key =>
      pyotpVerifyLoop key code (Int.ofNat (now / 30))
        ((List.range (2 * validWindow + 1)).map (fun j => (j : Int) - validWindow))

/-! ### Process startup and the three endpoints (app.py lines 107-187) -/

/-- Process-wide state established at import time: the private key (as
an opaque decryption oracle) or `None`, the recorded load-error string,
and the filesystem.  Mirrors the module globals `PRIVATE_KEY`,
`_privkey_load_error`, and the seed file at `SEED_PATH`. -/
structure ServerState where
  privateKey : Option (List Nat → Option (List Nat))
  privkeyLoadError : Option (List Char)
  store : Store

/-- The module-level `try: PRIVATE_KEY = load_private_key(...)` block
(lines 107-115): a load failure is caught, `PRIVATE_KEY` becomes `None`
and the error string is recorded; the process keeps running either way. -/
def initState (loadResult : Except (List Char) (List Nat → Option (List Nat)))
    (st : Store) : ServerState :=
  match loadResult with
  | .ok key => { privateKey := some key, privkeyLoadError := none, store := st }
  | .error e => { privateKey := none, privkeyLoadError := some e, store := st }

/-- Endpoint responses, keeping the status code and which `detail`
string the handler produced. -/
inductive Resp where
  /-- `{"status": "ok"}` from `decrypt-seed`. -/
  | ok : Resp
  /-- `{"code": ..., "valid_for": ...}` from `generate-2fa`. -/
  | generated (code : List Char) (validFor : Nat) : Resp
  /-- `{"valid": ...}` from `verify-2fa`. -/
  | verified (valid : Bool) : Resp
  /-- 400 `"Missing encrypted_seed"`. -/
  | errMissingEncryptedSeed : Resp
  /-- 500 `"Server private key not available"`. -/
  | errKeyUnavailable : Resp
  /-- 400 `"Invalid base64"`. -/
  | errInvalidBase64 : Resp
  /-- 400 `str(ve)` — the `except ValueError` branch of `decrypt-seed`. -/
  | errBadRequest (e : PyExc) : Resp
  /-- 500 `"Decryption failed"`. -/
  | errDecryptionFailed : Resp
  /-- 500 `"Failed to persist seed"`. -/
  | errPersistFailed : Resp
  /-- 400 `"Missing code"`. -/
  | errMissingCode : Resp
  /-- 500 `"Seed not decrypted yet"`. -/
  | errSeedNotDecrypted : Resp
  /-- 500 `"Failed to read seed"`. -/
  | errFailedReadSeed : Resp
  /-- 500 `"Failed to generate TOTP"`. -/
  | errFailedGenerate : Resp
  /-- 500 `"Verification failed"`. -/
  | errVerificationFailed : Resp
deriving DecidableEq, Repr

/-- HTTP status code of a response. -/
def Resp.status : Resp → Nat
  | .ok | .generated _ _ | .verified _ => 200
  | .errMissingEncryptedSeed | .errInvalidBase64 | .errBadRequest _
  | .errMissingCode => 400
  | .errKeyUnavailable | .errDecryptionFailed | .errPersistFailed
  | .errSeedNotDecrypted | .errFailedReadSeed | .errFailedGenerate
  | .errVerificationFailed => 500

instance {ε α : Type} [DecidableEq ε] [DecidableEq α] : DecidableEq (Except ε α) := fun a b =>
  match a, b with
  | .ok x, .ok y =>
    if h : x = y then isTrue (by rw [h])
    else isFalse (fun he => h (Except.ok.inj he))
  | .error x, .error y =>
    if h : x = y then isTrue (by rw [h])
    else isFalse (fun he => h (Except.error.inj he))
  | .ok _, .error _ => isFalse (fun he => Except.noConfusion he)
  | .error _, .ok _ => isFalse (fun he => Except.noConfusion he)

/-- `POST /decrypt-seed` (lines 120-148).  Persistence I/O itself is not
made to fail in the model (the `except` around `save_seed_atomic` maps
such failures to `errPersistFailed`; no claim exercises it). -/
def decrypt_seed_endpoint (s : ServerState) (encryptedSeed : List Char) :
    Resp × ServerState :=
  if encryptedSeed = [] then (.errMissingEncryptedSeed, s)
  else
    match s.privateKey with
    | none => (.errKeyUnavailable, s)
    | some rsa =>
      match b64decode encryptedSeed with
      | none => (.errInvalidBase64, s)
      | some ciphertext =>
        match decrypt_seed_from_bytes (rsa ciphertext) with
        | .error e =>
          if e.isValueError then (.errBadRequest e, s) else (.errDecryptionFailed, s)
        | .ok seedHex => (.ok, { s with store := save_seed_atomic seedHex s.store })

/-- `GET /generate-2fa` (lines 151-166). -/
def generate_2fa_endpoint (s : ServerState) (now : Nat) : Resp :=
  match read_seed s.store with
  | .error .fileNotFoundSeed => .errSeedNotDecrypted
  | .error _ => .errFailedReadSeed
  | .ok seedHex =>
    match generate_totp_from_hex seedHex now with
    | .error _ => .errFailedGenerate
    | .ok (code, validFor) => .generated code validFor

/-- `POST /verify-2fa` (lines 169-187). -/
def verify_2fa_endpoint (s : ServerState) (code : List Char) (now : Nat) : Resp :=
  if code = [] then .errMissingCode
  else
    match read_seed s.store with
    | .error .fileNotFoundSeed => .errSeedNotDecrypted
    | .error _ => .errFailedReadSeed
    | .ok seedHex =>
      match verify_totp_from_hex seedHex code 1 now with
      | .error _ => .errVerificationFailed
      | .ok valid => .verified valid

/-! ### Helper lemmas on stripping and character classes -/

theorem dropWhile_eq_self_of_forall {p : Char → Bool} :
    ∀ {l : List Char}, (∀ c ∈ l, p c = false) → l.dropWhile p = l
  | [], _ => rfl
  | a :: t, h => by
    have ha := h a (List.mem_cons_self a t)
    simp [List.dropWhile_cons, ha]

theorem rstrip_eq_self {l : List Char} (h : ∀ c ∈ l, isPySpace c = false) :
    rstrip l = l := by
  unfold rstrip
  rw [dropWhile_eq_self_of_forall (fun c hc => h c (List.mem_reverse.mp hc)),
    List.reverse_reverse]

theorem rstrip_append_space (l : List Char) (c : Char) (hc : isPySpace c = true) :
    rstrip (l ++ [c]) = rstrip l := by
  unfold rstrip
  rw [List.reverse_append]
  simp [List.dropWhile_cons, hc]

theorem pstrip_eq_self {l : List Char} (h : ∀ c ∈ l, isPySpace c = false) :
    pstrip l = l := by
  unfold pstrip
  rw [dropWhile_eq_self_of_forall h, rstrip_eq_self h]

theorem pstrip_append_newline {l : List Char} (h : ∀ c ∈ l, isPySpace c = false) :
    pstrip (l ++ ['\n']) = l := by
  cases l with
  | nil => decide
  | cons a t =>
    have ha : isPySpace a = false := h a (List.mem_cons_self a t)
    unfold pstrip
    rw [List.cons_append, List.dropWhile_cons]
    simp only [ha, Bool.false_eq_true, if_false]
    rw [← List.cons_append, rstrip_append_space _ _ (by decide),
      rstrip_eq_self h]

theorem isPySpace_eq_false_of_hex {c : Char} (h : isSeedHexChar c = true) :
    isPySpace c = false := by
  by_contra hsp
  rw [Bool.not_eq_false] at hsp
  unfold isPySpace at hsp
  simp only [Bool.or_eq_true, beq_iff_eq] at hsp
  rcases hsp with ((((h1 | h1) | h1) | h1) | h1) | h1 <;> subst h1 <;> revert h <;> decide

/-! ### Store lemmas -/

theorem runSteps_append (st : Store) :
    ∀ (l1 l2 : List SaveStep), runSteps st (l1 ++ l2) = runSteps (runSteps st l1) l2 := by
  intro l1
  induction l1 generalizing st with
  | nil => intro l2; rfl
  | cons s rest ih => intro l2; simp only [List.cons_append, runSteps]; exact ih _ _

theorem runSteps_canonical_of_no_rename :
    ∀ (steps : List SaveStep) (st : Store), SaveStep.renameTmp ∉ steps →
      (runSteps st steps).canonical = st.canonical
  | [], _, _ => rfl
  | s :: rest, st, h => by
    have hs : s ≠ SaveStep.renameTmp := fun he => h (he ▸ List.mem_cons_self s rest)
    have hr : SaveStep.renameTmp ∉ rest := fun hm => h (List.mem_cons_of_mem s hm)
    rw [runSteps, runSteps_canonical_of_no_rename rest _ hr]
    cases s with
    | makeDirs => rfl
    | openTmp => rfl
    | writeTmp c => rfl
    | renameTmp => exact absurd rfl hs

theorem runSteps_writes (st : Store) :
    ∀ (chunks : List (List Char)) (acc : List Char),
      runSteps { st with tmp := some acc } (chunks.map SaveStep.writeTmp)
        = { st with tmp := some (acc ++ chunks.flatten) } := by
  intro chunks
  induction chunks with
  | nil => intro acc; simp [runSteps]
  | cons c cs ih =>
    intro acc
    simp only [List.map_cons, runSteps, stepRun, Option.map]
    rw [ih (acc ++ c)]
    simp [List.flatten_cons, List.append_assoc]

theorem renameTmp_not_mem_front (chunks : List (List Char)) :
    SaveStep.renameTmp ∉
      ([SaveStep.makeDirs, SaveStep.openTmp] ++ chunks.map SaveStep.writeTmp) := by
  intro h
  rcases List.mem_append.mp h with h | h
  · simp at h
  · rcases List.mem_map.mp h with ⟨c, _, hc⟩
    exact SaveStep.noConfusion hc

/-- C2 — Atomic persistence: `save_seed_atomic` writes the complete
content `seed.strip() + "\n"` to the temporary sibling and installs it
with the single `os.replace` at the end of its step sequence; running
any strict prefix of the steps (an interrupted save) leaves the
canonical file exactly as it was — absent if it was absent, its prior
content otherwise — so no reader can observe a partial write. -/
theorem save_seed_atomic_spec (seedHex : List Char) (chunks : List (List Char)) (st : Store)
    (hc : chunks.flatten = pstrip seedHex ++ ['\n']) :
    (runSteps st (saveProg chunks)).canonical = some (pstrip seedHex ++ ['\n'])
    ∧ (saveProg chunks).count SaveStep.renameTmp = 1
    ∧ (∀ k, k < (saveProg chunks).length →
        (runSteps st ((saveProg chunks).take k)).canonical = st.canonical) := by
  refine ⟨?_, ?_, ?_⟩
  · show (runSteps st (([SaveStep.makeDirs, SaveStep.openTmp]
      ++ chunks.map SaveStep.writeTmp) ++ [SaveStep.renameTmp])).canonical = _
    rw [runSteps_append, runSteps_append]
    have h2 : runSteps st [SaveStep.makeDirs, SaveStep.openTmp]
        = { st with tmp := some [] } := rfl
    rw [h2, runSteps_writes, List.nil_append, hc]
    rfl
  · show (([SaveStep.makeDirs, SaveStep.openTmp]
      ++ chunks.map SaveStep.writeTmp) ++ [SaveStep.renameTmp]).count SaveStep.renameTmp = 1
    rw [List.count_append, List.count_eq_zero.mpr (renameTmp_not_mem_front chunks)]
    rfl
  · intro k hk
    apply runSteps_canonical_of_no_rename
    intro hmem
    have hfront : (saveProg chunks).take k
        = ([SaveStep.makeDirs, SaveStep.openTmp] ++ chunks.map SaveStep.writeTmp).take k := by
      show (([SaveStep.makeDirs, SaveStep.openTmp]
        ++ chunks.map SaveStep.writeTmp) ++ [SaveStep.renameTmp]).take k = _
      apply List.take_append_of_le_length
      have : (saveProg chunks).length
          = ([SaveStep.makeDirs, SaveStep.openTmp] ++ chunks.map SaveStep.writeTmp).length + 1 := by
        simp [saveProg]
      omega
    rw [hfront] at hmem
    exact renameTmp_not_mem_front chunks (List.mem_of_mem_take hmem)

/-- C2 witness: a two-chunk interrupted save of a concrete seed leaves
an absent canonical file absent, and the completed save installs the
full content. -/
theorem save_seed_atomic_spec_witness :
    (runSteps ⟨none, none⟩ (saveProg [['a', 'b'], ['\n']])).canonical
      = some (['a', 'b'] ++ ['\n'])
    ∧ (saveProg [['a', 'b'], ['\n']]).count SaveStep.renameTmp = 1
    ∧ (runSteps ⟨none, none⟩ ((saveProg [['a', 'b'], ['\n']]).take 3)).canonical = none :=
  have h := save_seed_atomic_spec ['a', 'b'] [['a', 'b'], ['\n']] ⟨none, none⟩ (by decide)
  ⟨by rw [h.1]; decide, h.2.1, h.2.2 3 (by decide)⟩

/-- C1 counterexample: a stored 64-character string of non-hex
characters (`'z' * 64`) is returned by `read_seed` as a seed — the
read-back path checks only the trimmed length, never the charset. -/
theorem read_seed_no_charset_check :
    read_seed { canonical := some (List.replicate 64 'z'), tmp := none }
        = .ok (List.replicate 64 'z')
    ∧ (List.replicate 64 'z').all isSeedHexChar = false := by
  constructor
  · rfl
  · decide

/-- C1 as amended — Seed-store read-back validation: `read_seed` fails
with `FileNotFoundError` (NotProvisioned) when the canonical file does
not exist and with `ValueError` (CorruptStore) when the trimmed stored
content's length is not 64; it performs no charset validation, so any
64-character trimmed content is returned as the seed, hex or not. -/
theorem read_seed_spec (st : Store) :
    (st.canonical = none → read_seed st = .error .fileNotFoundSeed)
    ∧ (∀ content, st.canonical = some content → (pstrip content).length ≠ 64 →
        read_seed st = .error .valueStoredSeedInvalidLength)
    ∧ (∀ content, st.canonical = some content → (pstrip content).length = 64 →
        read_seed st = .ok (pstrip content)) := by
  refine ⟨fun h => ?_, fun content hc hl => ?_, fun content hc hl => ?_⟩ <;>
    simp [read_seed, *]

/-- C1 witness: `read_seed_spec` applied at an absent file, a
wrong-length store, and a valid store. -/
theorem read_seed_spec_witness :
    read_seed ⟨none, none⟩ = .error .fileNotFoundSeed
    ∧ read_seed ⟨some ['a', 'b'], none⟩ = .error .valueStoredSeedInvalidLength
    ∧ read_seed ⟨some (List.replicate 64 '0'), none⟩ = .ok (List.replicate 64 '0') :=
  ⟨(read_seed_spec ⟨none, none⟩).1 rfl,
   (read_seed_spec ⟨some ['a', 'b'], none⟩).2.1 ['a', 'b'] rfl (by decide),
   by
     have h := (read_seed_spec ⟨some (List.replicate 64 '0'), none⟩).2.2
       (List.replicate 64 '0') rfl (by decide)
     rw [h]
     rfl⟩

/-- C9 — Store round-trip: saving a seed that satisfies the Seed
invariant (64 hex characters, hence no surrounding whitespace) and
reading it back at the same path returns exactly that seed; the
trailing newline appended by the writer is stripped by the reader. -/
theorem store_round_trip (s : List Char) (st : Store) (hinv : SeedInvariant s) :
    read_seed (save_seed_atomic s st) = .ok s := by
  obtain ⟨hlen, hhex⟩ := hinv
  have hns : ∀ c ∈ s, isPySpace c = false := fun c hc =>
    isPySpace_eq_false_of_hex (List.all_eq_true.mp hhex c hc)
  have hps : pstrip s = s := pstrip_eq_self hns
  have hsave : save_seed_atomic s st = ⟨some (s ++ ['\n']), none⟩ := by
    unfold save_seed_atomic saveProg
    simp [runSteps, stepRun, hps]
  rw [hsave]
  simp [read_seed, pstrip_append_newline hns, hlen]

/-- C9 witness: round trip of a concrete valid seed through an empty
store. -/
theorem store_round_trip_witness :
    read_seed (save_seed_atomic (List.replicate 64 'a') ⟨none, none⟩)
      = .ok (List.replicate 64 'a') :=
  store_round_trip (List.replicate 64 'a') ⟨none, none⟩ (by decide)

/-! ### Shared concrete inputs for witnesses -/

/-- The 64-hex-character seed used in concrete evaluations. -/
def seed0 : List Char :=
  "0123456789abcdef0123456789abcdef0123456789abcdef0123456789abcdef".data

/-- `hex_to_base32 seed0` (checked below by `rfl` where used). -/
def b32seed0 : List Char :=
  "AERUKZ4JVPG66AJDIVTYTK6N54ASGRLHRGV433YBENCWPCNLZXXQ".data

/-- The 32 seed bytes of `seed0`. -/
def keyseed0 : List Nat :=
  [1, 35, 69, 103, 137, 171, 205, 239, 1, 35, 69, 103, 137, 171, 205, 239,
   1, 35, 69, 103, 137, 171, 205, 239, 1, 35, 69, 103, 137, 171, 205, 239]

/-- C5 — Bad-ciphertext atomicity and error mapping: for every
syntactically valid base64 request whose RSA-OAEP decryption fails (the
oracle returns `none`, whatever the cause — the `except` clause in
`decrypt_seed_from_bytes` collapses every decrypt exception into the one
`RuntimeError`), the endpoint answers with the single undifferentiated
500 `"Decryption failed"` response, and the server state — in
particular the stored seed — is returned unchanged. -/
theorem decrypt_endpoint_bad_ciphertext
    (rsa : List Nat → Option (List Nat)) (perr : Option (List Char)) (st : Store)
    (req : List Char) (ct : List Nat)
    (hreq : req ≠ []) (hb64 : b64decode req = some ct) (hfail : rsa ct = none) :
    decrypt_seed_endpoint ⟨some rsa, perr, st⟩ req
      = (.errDecryptionFailed, ⟨some rsa, perr, st⟩) := by
  unfold decrypt_seed_endpoint
  rw [if_neg hreq]
  simp [hb64, decrypt_seed_from_bytes, hfail, PyExc.isValueError]

/-- C5 witness: a concrete always-failing oracle on the base64 request
`"AA=="` over a provisioned store leaves that store untouched. -/
theorem decrypt_endpoint_bad_ciphertext_witness :
    decrypt_seed_endpoint
        ⟨some (fun _ => none), none, ⟨some (List.replicate 64 'a'), none⟩⟩ ("AA==".data)
      = (.errDecryptionFailed,
         ⟨some (fun _ => none), none, ⟨some (List.replicate 64 'a'), none⟩⟩) :=
  decrypt_endpoint_bad_ciphertext (fun _ => none) none
    ⟨some (List.replicate 64 'a'), none⟩ ("AA==".data) [0] (by decide) rfl rfl

/-- C6 — Post-decrypt format validation: for every decryption outcome
whose plaintext bytes decode as UTF-8, the decoded text is stripped of
surrounding whitespace and validated: trimmed length ≠ 64 fails with the
length-specific `ValueError`, a 64-character trim with any non-hex
character fails with the charset-specific `ValueError`, and otherwise
the trimmed string is returned unchanged as the seed. -/
theorem decrypt_seed_format_validation (pt : List Nat) (s : List Char)
    (hdec : utf8Decode pt = some s) :
    ((pstrip s).length ≠ 64 →
      decrypt_seed_from_bytes (some pt)
        = .error (.valueInvalidSeedLength (pstrip s).length))
    ∧ ((pstrip s).length = 64 → (pstrip s).all isSeedHexChar = false →
      decrypt_seed_from_bytes (some pt) = .error .valueSeedNonHex)
    ∧ ((pstrip s).length = 64 → (pstrip s).all isSeedHexChar = true →
      decrypt_seed_from_bytes (some pt) = .ok (pstrip s)) := by
  refine ⟨fun h => ?_, fun h1 h2 => ?_, fun h1 h2 => ?_⟩ <;>
    simp [decrypt_seed_from_bytes, hdec, *]

/-- C6 witness: a concrete ASCII plaintext `" <64 hex chars>\n"` is
trimmed and accepted; the theorem's valid branch applied at it. -/
theorem decrypt_seed_format_validation_witness :
    decrypt_seed_from_bytes (some ([32] ++ seed0.map Char.toNat ++ [10])) = .ok seed0 := by
  have h := (decrypt_seed_format_validation ([32] ++ seed0.map Char.toNat ++ [10])
    ([' '] ++ seed0 ++ ['\n']) (by decide)).2.2 (by decide) (by decide)
  rw [h]
  have hp : pstrip ([' '] ++ seed0 ++ ['\n']) = seed0 := by decide
  rw [hp]

/-- C8 counterexample: with the key unavailable, a provision call with
an empty `encrypted_seed` fails with the 400 "Missing encrypted_seed"
response, not with the KeyUnavailable response — the emptiness check
precedes the key check, so not literally *every* provision call fails
with `KeyUnavailable`. -/
theorem keyUnavailable_empty_input :
    decrypt_seed_endpoint (initState (.error "boom".data) ⟨none, none⟩) []
      = (.errMissingEncryptedSeed, initState (.error "boom".data) ⟨none, none⟩)
    ∧ Resp.errMissingEncryptedSeed ≠ Resp.errKeyUnavailable := by
  exact ⟨rfl, by decide⟩

/-- C8 as amended — Key-load failure containment: a failed key load is
caught at startup (no crash: `initState` is total), the failure is
recorded in `_privkey_load_error`, every provision call with a nonempty
`encrypted_seed` then fails with the dedicated KeyUnavailable response
(distinct from the generic decryption failure), and the generate and
verify endpoints behave identically whether or not the key loaded. -/
theorem key_load_failure_contained (e : List Char) (st : Store) :
    ((initState (.error e) st).privateKey = none
      ∧ (initState (.error e) st).privkeyLoadError = some e)
    ∧ (∀ req : List Char, req ≠ [] →
        decrypt_seed_endpoint (initState (.error e) st) req
          = (.errKeyUnavailable, initState (.error e) st))
    ∧ Resp.errKeyUnavailable ≠ Resp.errDecryptionFailed
    ∧ (∀ key now, generate_2fa_endpoint (initState (.error e) st) now
        = generate_2fa_endpoint (initState (.ok key) st) now)
    ∧ (∀ key code now, verify_2fa_endpoint (initState (.error e) st) code now
        = verify_2fa_endpoint (initState (.ok key) st) code now) := by
  refine ⟨⟨rfl, rfl⟩, fun req hreq => ?_, by decide,
    fun key now => rfl, fun key code now => rfl⟩
  unfold decrypt_seed_endpoint initState
  rw [if_neg hreq]

/-- C8 witness: the contained-failure theorem applied at a concrete
load error, request, and time. -/
theorem key_load_failure_contained_witness :
    decrypt_seed_endpoint (initState (.error "boom".data) ⟨none, none⟩) ("AA==".data)
      = (.errKeyUnavailable, initState (.error "boom".data) ⟨none, none⟩)
    ∧ generate_2fa_endpoint (initState (.error "boom".data) ⟨none, none⟩) 0
      = generate_2fa_endpoint (initState (.ok (fun _ => none)) ⟨none, none⟩) 0 :=
  ⟨(key_load_failure_contained "boom".data ⟨none, none⟩).2.1 ("AA==".data) (by decide),
   (key_load_failure_contained "boom".data ⟨none, none⟩).2.2.2.1 (fun _ => none) 0⟩

/-- C10 counterexample: a ciphertext decrypting to the single byte
`0xFF` (not valid UTF-8) makes provision answer on the 400 bad-request
path with the `UnicodeDecodeError` detail — in CPython
`UnicodeDecodeError` is a subclass of `ValueError`, so the endpoint's
`except ValueError` clause catches it — not on the 500 generic
decryption-failure path the claim asserts (store still unchanged). -/
theorem non_utf8_plaintext_400 :
    decrypt_seed_endpoint ⟨some (fun _ => some [255]), none, ⟨none, none⟩⟩ ("AA==".data)
      = (.errBadRequest .unicodeDecodeError, ⟨some (fun _ => some [255]), none, ⟨none, none⟩⟩)
    ∧ (Resp.errBadRequest PyExc.unicodeDecodeError).status = 400
    ∧ Resp.errBadRequest PyExc.unicodeDecodeError ≠ Resp.errDecryptionFailed
    ∧ Resp.errDecryptionFailed.status = 500 := by
  exact ⟨rfl, rfl, by decide, rfl⟩

/-- C10 as amended — Non-UTF-8 plaintext edge case: for every ciphertext
whose RSA-OAEP decryption succeeds but whose plaintext bytes are not
valid UTF-8, provision fails on the 400 bad-request path carrying the
`UnicodeDecodeError` detail (the `except ValueError` branch, since
`UnicodeDecodeError` subclasses `ValueError`), and the stored seed file
is left unchanged. -/
theorem non_utf8_plaintext_spec
    (rsa : List Nat → Option (List Nat)) (perr : Option (List Char)) (st : Store)
    (req : List Char) (ct : List Nat) (pt : List Nat)
    (hreq : req ≠ []) (hb64 : b64decode req = some ct)
    (hdecrypt : rsa ct = some pt) (hutf : utf8Decode pt = none) :
    decrypt_seed_endpoint ⟨some rsa, perr, st⟩ req
      = (.errBadRequest .unicodeDecodeError, ⟨some rsa, perr, st⟩)
    ∧ (Resp.errBadRequest PyExc.unicodeDecodeError).status = 400 := by
  refine ⟨?_, rfl⟩
  unfold decrypt_seed_endpoint
  rw [if_neg hreq]
  simp [hb64, decrypt_seed_from_bytes, hdecrypt, hutf, PyExc.isValueError]

/-- C10 witness: the amended statement applied at the concrete
counterexample input. -/
theorem non_utf8_plaintext_spec_witness :
    decrypt_seed_endpoint ⟨some (fun _ => some [128]), none, ⟨none, none⟩⟩ ("AA==".data)
      = (.errBadRequest .unicodeDecodeError, ⟨some (fun _ => some [128]), none, ⟨none, none⟩⟩) :=
  (non_utf8_plaintext_spec (fun _ => some [128]) none ⟨none, none⟩ ("AA==".data) [0] [128]
    (by decide) rfl rfl rfl).1

/-- C4 — validFor correctness: whenever `generate_totp_from_hex`
succeeds at call time `now`, the returned `valid_for` equals
`30 - (now mod 30)`, always lies in `[1, 30]`, and hits the boundary
values 30 at `now mod 30 = 0` and 1 at `now mod 30 = 29`. -/
theorem generate_validFor_spec (hexSeed : List Char) (now : Nat)
    (code : List Char) (vf : Nat)
    (hg : generate_totp_from_hex hexSeed now = .ok (code, vf)) :
    vf = 30 - now % 30 ∧ 1 ≤ vf ∧ vf ≤ 30
    ∧ (now % 30 = 0 → vf = 30) ∧ (now % 30 = 29 → vf = 1) := by
  unfold generate_totp_from_hex at hg
  split at hg
  · exact absurd hg (by simp)
  · split at hg
    · exact absurd hg (by simp)
    · injection hg with hpair
      have hvf : vf = 30 - now % 30 := (congrArg Prod.snd hpair).symm
      have h30 : now % 30 < 30 := Nat.mod_lt _ (by omega)
      exact ⟨hvf, by omega, by omega, fun h => by omega, fun h => by omega⟩

/-- C4 witness: at `now = 59` (so `now mod 30 = 29`) the concrete seed
yields `valid_for = 1`. -/
theorem generate_validFor_spec_witness :
    (1 : Nat) = 30 - 59 % 30 ∧ 1 ≤ (1 : Nat) ∧ (1 : Nat) ≤ 30
    ∧ (59 % 30 = 0 → (1 : Nat) = 30) ∧ (59 % 30 = 29 → (1 : Nat) = 1) :=
  generate_validFor_spec seed0 59 ("997502".data) 1 (by decide)

/-! ### Base32 character lemmas (for C7) -/

theorem getD_mem_b32 (n : Nat) : b32alphabet.getD n 'A' ∈ b32alphabet := by
  by_cases h : n < b32alphabet.length
  · rw [List.getD_eq_getElem _ _ h]
    exact List.getElem_mem h
  · rw [List.getD_eq_default _ _ (by omega)]
    decide

theorem mem_b32encodeChunk {c : Char} {chunk : List Nat}
    (h : c ∈ b32encodeChunk chunk) : c ∈ b32alphabet ∨ c = '=' := by
  simp only [b32encodeChunk] at h
  rcases List.mem_append.mp h with h | h
  · left
    have h2 := List.take_subset _ _ h
    rcases List.mem_map.mp h2 with ⟨i, _, hi⟩
    rw [← hi]
    exact getD_mem_b32 _
  · right
    exact List.eq_of_mem_replicate h

theorem mem_b32encode :
    ∀ (bs : List Nat) {c : Char}, c ∈ b32encode bs → c ∈ b32alphabet ∨ c = '='
  | [], _, h => absurd h (List.not_mem_nil _)
  | [_], _, h => mem_b32encodeChunk h
  | [_, _], _, h => mem_b32encodeChunk h
  | [_, _, _], _, h => mem_b32encodeChunk h
  | [_, _, _, _], _, h => mem_b32encodeChunk h
  | _ :: _ :: _ :: _ :: _ :: rest, c, h => by
    rw [b32encode] at h
    rcases List.mem_append.mp h with h | h
    · exact mem_b32encodeChunk h
    · exact mem_b32encode rest h

theorem b32encode_not_space (bs : List Nat) :
    ∀ c ∈ b32encode bs, isPySpace c = false := by
  intro c hc
  rcases mem_b32encode bs hc with h | h
  · have hall : ∀ c ∈ b32alphabet, isPySpace c = false := by decide
    exact hall c h
  · subst h
    decide

/-- C7 counterexample: `"aa bb"` is not valid hex (it contains a space
and has odd length 5), yet `hex_to_base32` succeeds on it, because
`bytes.fromhex` skips ASCII whitespace between byte pairs; the same
holds for a tab in `"aa\tbb"`. -/
theorem hex_to_base32_space_accepted :
    ("aa bb".data.all isSeedHexChar = false)
    ∧ "aa bb".data.length = 5
    ∧ hex_to_base32 "aa bb".data = .ok ("VK5Q".data)
    ∧ hex_to_base32 "aa\tbb".data = .ok ("VK5Q".data) := by
  exact ⟨by decide, by decide, by decide, by decide⟩

/-- C7 as amended — Codec base32 conversion: `hex_to_base32` is a
deterministic total Lean function; whenever `bytes.fromhex` accepts the
input, the output is exactly the standard base32 encoding of the decoded
bytes with every `'='` removed (so it never contains `'='`); it fails
with the malformed-seed `ValueError` exactly when `bytes.fromhex`
rejects the input — which is not quite "any input that is not valid
hex", since `bytes.fromhex` (Python ≥ 3.7) skips all ASCII whitespace
between byte pairs. -/
theorem hex_to_base32_spec (h : List Char) :
    (∀ bs, bytesFromHex h = some bs →
      hex_to_base32 h = .ok ((b32encode bs).filter (fun c => !(c == '=')))
      ∧ ∀ c ∈ (b32encode bs).filter (fun c => !(c == '=')), ¬ c = '=')
    ∧ (bytesFromHex h = none → hex_to_base32 h = .error .valueInvalidHexSeed) := by
  constructor
  · intro bs hbs
    constructor
    · simp only [hex_to_base32, hbs]
      rw [pstrip_eq_self (b32encode_not_space bs)]
    · intro c hc
      have h2 := (List.mem_filter.mp hc).2
      simpa using h2
  · intro hnone
    unfold hex_to_base32
    rw [hnone]

/-- C7 witness: the concrete valid seed encodes to its unpadded base32
form, a tab-separated byte pair is accepted (`bytes.fromhex` skips the
whitespace), and a non-hex input is rejected. -/
theorem hex_to_base32_spec_witness :
    hex_to_base32 seed0 = .ok b32seed0
    ∧ hex_to_base32 "aa\tbb".data = .ok ("VK5Q".data)
    ∧ hex_to_base32 ['z', 'z'] = .error .valueInvalidHexSeed := by
  have h1 := ((hex_to_base32_spec seed0).1 keyseed0 (by decide)).1
  have h2 : (b32encode keyseed0).filter (fun c => !(c == '=')) = b32seed0 := by decide
  have h3 := ((hex_to_base32_spec "aa\tbb".data).1 [170, 187] (by decide)).1
  have h4 : (b32encode [170, 187]).filter (fun c => !(c == '=')) = "VK5Q".data := by decide
  exact ⟨h2 ▸ h1, h4 ▸ h3, (hex_to_base32_spec ['z', 'z']).2 (by decide)⟩

/-! ### Verification-loop lemma (for C3) -/

theorem pyotpVerifyLoop_eq_any (key : List Nat) (otp : List Char) (tc : Int) :
    ∀ (offs : List Int), (∀ i ∈ offs, 0 ≤ tc + i) →
      pyotpVerifyLoop key otp tc offs
        = .ok (offs.any (fun i => hotp6 key (tc + i).toNat == otp))
  | [], _ => rfl
  | i :: offs, h => by
    have h0 : 0 ≤ tc + i := h i (List.mem_cons_self i offs)
    have hrest := pyotpVerifyLoop_eq_any key otp tc offs
      (fun j hj => h j (List.mem_cons_of_mem i hj))
    simp only [pyotpVerifyLoop]
    rw [if_neg (by omega)]
    by_cases hm : (hotp6 key (tc + i).toNat == otp) = true
    · rw [if_pos hm, List.any_cons, hm]
      rfl
    · rw [if_neg hm, hrest, List.any_cons]
      rw [Bool.not_eq_true] at hm
      rw [hm, Bool.false_or]

/-- C3 counterexample: for the concrete seed `seed0` the codes collide
across the window — the code generated at counter 34430 = 34428 + 2
(time 1032900) verifies successfully with `window = 1` at a time whose
counter is 34428 (it equals the code at counter 34427 = C - 1), so a
code generated at counter C + 2 does *not* always fail to verify. -/
theorem totp_skew_collision :
    (1032900 / 30 = 1032840 / 30 + 2)
    ∧ generate_totp_from_hex seed0 1032900 = .ok ("157894".data, 30)
    ∧ verify_totp_from_hex seed0 ("157894".data) 1 1032840 = .ok true := by
  exact ⟨by decide, by decide, by decide⟩

/-- C3 as amended — Skew-tolerant verification: let `C` be the counter
at verification time and `cg` the counter at generation time.  With
`window = 1`, a generated code verifies whenever `cg ∈ [C-1, C+1]`
(the submitted 6-digit string is compared for equality against the
equally zero-padded recomputed codes); and a code generated at counter
`C-2` or `C+2` fails to verify *provided* it differs from each of the
three codes at counters `C-1`, `C`, `C+1` — the clause the collision
counterexample forces; such collisions are ~10⁻⁶-probable per counter
but do occur. -/
theorem totp_skew_window (seedHex b32 : List Char) (key : List Nat)
    (C cg tGen tVer : Nat) (code : List Char) (vf : Nat)
    (hb : hex_to_base32 seedHex = .ok b32)
    (hk : pyotpByteSecret b32 = some key)
    (hC : 2 ≤ C) (hver : tVer / 30 = C) (hgen : tGen / 30 = cg)
    (hcode : generate_totp_from_hex seedHex tGen = .ok (code, vf)) :
    (C - 1 ≤ cg ∧ cg ≤ C + 1 → verify_totp_from_hex seedHex code 1 tVer = .ok true)
    ∧ ((cg = C - 2 ∨ cg = C + 2) →
        hotp6 key (C - 1) ≠ code → hotp6 key C ≠ code → hotp6 key (C + 1) ≠ code →
        verify_totp_from_hex seedHex code 1 tVer = .ok false) := by
  simp only [generate_totp_from_hex, hb, hk, hgen, Except.ok.injEq, Prod.mk.injEq] at hcode
  have hc : code = hotp6 key cg := hcode.1.symm
  have hv : verify_totp_from_hex seedHex code 1 tVer
      = pyotpVerifyLoop key code (Int.ofNat C) [-1, 0, 1] := by
    simp only [verify_totp_from_hex, hb, hk, hver]
    rfl
  have hloop := pyotpVerifyLoop_eq_any key code (Int.ofNat C) [-1, 0, 1]
    (by intro i hi; fin_cases hi <;> rw [Int.ofNat_eq_coe] <;> omega)
  have e1 : ((Int.ofNat C) + (-1)).toNat = C - 1 := by rw [Int.ofNat_eq_coe]; omega
  have e2 : ((Int.ofNat C) + 0).toNat = C := by rw [Int.ofNat_eq_coe]; omega
  have e3 : ((Int.ofNat C) + 1).toNat = C + 1 := by rw [Int.ofNat_eq_coe]; omega
  rw [hv, hloop]
  simp only [List.any_cons, List.any_nil, e1, e2, e3, Bool.or_false]
  constructor
  · rintro ⟨h1, h2⟩
    have hcg : cg = C - 1 ∨ cg = C ∨ cg = C + 1 := by omega
    rw [hc]
    rcases hcg with h | h | h <;> rw [h] <;> simp
  · rintro _ hne1 hne2 hne3
    have f1 : (hotp6 key (C - 1) == code) = false := beq_eq_false_iff_ne.mpr hne1
    have f2 : (hotp6 key C == code) = false := beq_eq_false_iff_ne.mpr hne2
    have f3 : (hotp6 key (C + 1) == code) = false := beq_eq_false_iff_ne.mpr hne3
    rw [f1, f2, f3]
    rfl

/-- C3 witness: at verification counter `C = 4`, the code generated at
counter 3 (= C - 1) verifies, and the code generated at counter 6
(= C + 2), which differs from the codes at counters 3, 4 and 5, fails
to verify. -/
theorem totp_skew_window_witness :
    verify_totp_from_hex seed0 ("810122".data) 1 120 = .ok true
    ∧ verify_totp_from_hex seed0 ("205653".data) 1 120 = .ok false :=
  ⟨(totp_skew_window seed0 b32seed0 keyseed0 4 3 90 120 ("810122".data) 30
      (by decide) (by decide) (by decide) (by decide) (by decide) (by decide)).1
      ⟨by decide, by decide⟩,
   (totp_skew_window seed0 b32seed0 keyseed0 4 6 180 120 ("205653".data) 30
      (by decide) (by decide) (by decide) (by decide) (by decide) (by decide)).2
      (Or.inr (by decide)) (by decide) (by decide) (by decide)⟩
